import Mathlib

/-!
Verification development for the `ArrayNode` fan-out construct of
`flytekit/core/array_node.py`.

The embedding below mirrors the two operations of the source file that the
properties concern: construction (`ArrayNode.__init__`, lines 23-75) and the
reference sequential execution semantics (`ArrayNode.local_execute`,
lines 104-163).  Python native values, engine literals, the declared
interface, and the per-call errors are modelled explicitly; the target's
invocation behaviour is a parameter (a function from a typed input map to
either an output literal or an error message), matching
`self.target.__call__` which either returns a promise or raises.
-/

/-- Python-side scalar types declared for an input or output field; these are the
types used in the `isinstance(v[0], self.target.python_interface.inputs[k])` check. -/
inductive PyType where
  | int : PyType
  | str : PyType
deriving DecidableEq, Repr

/-- Python-side scalar values. -/
inductive PyScalar where
  | int : Int → PyScalar
  | str : String → PyScalar
deriving DecidableEq, Repr

/-- Python-side native values as passed in `kwargs`: a scalar, or a list of scalars
(the collection form a mapped input takes). -/
inductive PyVal where
  | scalar : PyScalar → PyVal
  | list : List PyScalar → PyVal
deriving DecidableEq, Repr

/-- Models `isinstance` of a scalar value against a declared scalar type. -/
def PyScalar.isinstance : PyScalar → PyType → Bool
  | PyScalar.int _, PyType.int => true
  | PyScalar.str _, PyType.str => true
  | _, _ => false

/-- Engine-typed values, modelling `flytekit.models.literals.Literal` as used by
`ArrayNode.local_execute`: scalar literals and the none-sentinel
`Literal(scalar=Scalar(none_type=Void()))` appended for a tolerated failure.
The final output collection literal is modelled by `ExecResult.promise`. -/
inductive Literal where
  | scalarInt : Int → Literal
  | scalarStr : String → Literal
  | noneVal : Literal
deriving DecidableEq, Repr

/-- Exact fraction standing in for the Python float `min_success_ratio`; the
denominator is taken positive.  Python float equality and truthiness are value
based, so they are expressed through `num` and `den`, not structurally. -/
structure Frac where
  num : Int
  den : Int
deriving DecidableEq, Repr

/-- Value equality of the fraction with `0` (Python float `0.0` is falsy). -/
def Frac.isZero (f : Frac) : Bool := f.num == 0

/-- Value equality of the fraction with `1` (for `min_success_ratio != 1`). -/
def Frac.isOne (f : Frac) : Bool := f.num == f.den

/-- Models `math.ceil(n * f)` for a fraction with positive denominator, via
Euclidean division: the ceiling of `a / b` is `-((-a) ediv b)` when `b > 0`. -/
def ceilMul (n : Nat) (f : Frac) : Int := -((-((n : Int) * f.num)) / f.den)

/-- Declared scalar interface of the target entity
(`self.target.python_interface`), keys in declaration order. -/
structure Interface where
  inputs : List (String × PyType)
  outputs : List (String × PyType)
deriving DecidableEq, Repr

/-- Kind of the entity being mapped over; `ArrayNode.__init__` accepts only
`LaunchPlan` (`isinstance(target, LaunchPlan)`), anything else is rejected. -/
inductive TargetKind where
  | launchPlan : TargetKind
  | other : TargetKind
deriving DecidableEq, Repr

/-- Variant of the construction-time `metadata` argument:
`_workflow_model.NodeMetadata` or `TaskMetadata`. -/
inductive MetadataVariant where
  | nodeMetadata : MetadataVariant
  | taskMetadata : MetadataVariant
deriving DecidableEq, Repr

/-- The target entity: name, kind and declared scalar interface. -/
structure Target where
  name : String
  kind : TargetKind
  interface : Interface
deriving DecidableEq, Repr

/-- Types of the derived collection interface: a base scalar type, an Optional
wrapping, or a list wrapping. -/
inductive LType where
  | base : PyType → LType
  | optional : LType → LType
  | listOf : LType → LType
deriving DecidableEq, Repr

/-- The derived collection interface advertised by the node. -/
structure LInterface where
  inputs : List (String × LType)
  outputs : List (String × LType)
deriving DecidableEq, Repr

/-- Modelled from the spec: `transform_interface_to_list_interface`
(`flytekit/core/interface.py`, not part of src/).  Spec section 4.1: every
declared input not in the bound set is wrapped as an ordered collection, bound
inputs are left untouched, and each output type becomes an ordered collection of
the (Optional-wrapped, if the flag is set) element type. -/
def transform_interface_to_list_interface (iface : Interface) (bound : List String)
    (optionalWrap : Bool) : LInterface :=
  { inputs := iface.inputs.map (fun kt =>
      if bound.contains kt.1 then (kt.1, LType.base kt.2)
      else (kt.1, LType.listOf (LType.base kt.2)))
    outputs := iface.outputs.map (fun kt =>
      (kt.1, LType.listOf (if optionalWrap then LType.optional (LType.base kt.2)
                           else LType.base kt.2))) }

/-- Construction-time rejections of `ArrayNode.__init__` (lines 51-75). -/
inductive ConstructionError where
  | multipleOutputs : ConstructionError
  | unsupportedTargetKind : ConstructionError
  | unsupportedExecutionVersion : ConstructionError
  | invalidMetadata : ConstructionError
deriving DecidableEq, Repr

/-- The constructed node: the fields `ArrayNode.__init__` stores on success. -/
structure ArrayNode where
  target : Target
  concurrency : Option Nat
  min_successes : Option Int
  min_success_ratio : Option Frac
  bound_inputs : List String
  execution_version : Int
  metadata : Option MetadataVariant
  collection_interface : LInterface
deriving DecidableEq, Repr

/-- Models `ArrayNode.__init__` (source lines 23-75): reject more than one
declared output; compute the Optional-wrapping flag
`min_success_ratio is not None and min_success_ratio != 1 and n_outputs == 1`;
derive the collection interface; then, for a `LaunchPlan` target, default
`execution_version` to `1`, reject any other version, and reject a `metadata`
object that is not `NodeMetadata`; any other target kind is rejected. -/
def ArrayNode.init (target : Target) (concurrency : Option Nat)
    (min_successes : Option Int) (msr : Option Frac)
    (bound_inputs : Option (List String)) (execution_version : Option Int)
    (metadata : Option MetadataVariant) : Except ConstructionError ArrayNode :=
  if 1 < target.interface.outputs.length then
    .error ConstructionError.multipleOutputs
  else
    let bound := bound_inputs.getD []
    let optWrap := msr.isSome && !((msr.getD ⟨0, 1⟩).isOne)
                   && (target.interface.outputs.length == 1)
    let ci := transform_interface_to_list_interface target.interface bound optWrap
    match target.kind with
    | TargetKind.launchPlan =>
      if (execution_version.getD 1) != 1 then
        .error ConstructionError.unsupportedExecutionVersion
      else
        match metadata with
        | some MetadataVariant.taskMetadata => .error ConstructionError.invalidMetadata
        | md =>
          .ok { target := target, concurrency := concurrency,
                min_successes := min_successes, min_success_ratio := msr,
                bound_inputs := bound, execution_version := execution_version.getD 1,
                metadata := md, collection_interface := ci }
    | TargetKind.other => .error ConstructionError.unsupportedTargetKind

/-- Errors `local_execute` can raise: `KeyError` on a missing kwarg, the
`ValueError` of the mapped-input validation, `IndexError`/`TypeError` when
distributing an element, a translation failure, and a re-raised sub-invocation
error once the budget is exhausted. -/
inductive ExecError where
  | keyError : String → ExecError
  | inputShape : String → ExecError
  | indexError : String → ExecError
  | notSubscriptable : String → ExecError
  | translationError : String → ExecError
  | subError : String → ExecError
deriving DecidableEq, Repr

/-- Result of a completing `local_execute` call: a promise carrying the output
literal collection, or `VoidPromise(self.name)` for a void target. -/
inductive ExecResult where
  | promise : List Literal → ExecResult
  | voidPromise : String → ExecResult
deriving DecidableEq, Repr

/-- Python dict lookup `kwargs[k]`; `none` models the absence that the source
turns into a `KeyError`. -/
def lookup (m : List (String × α)) (k : String) : Option α :=
  (m.find? (fun p => p.1 == k)).map (fun p => p.2)

/-- Python truthiness of an optional int (`None` and `0` are falsy). -/
def pyTruthyInt : Option Int → Bool
  | none => false
  | some n => n != 0

/-- Python truthiness of an optional float (`None` and `0.0` are falsy). -/
def pyTruthyFrac : Option Frac → Bool
  | none => false
  | some f => !f.isZero

/-- Mapped-entity-count detection (source lines 109-119): scan the declared
inputs in order; at the first key not in `bound_inputs`, require a non-empty
list whose first element is an instance of the declared type and take its
length, raising otherwise; keys in `bound_inputs` are skipped; with no unbound
key the count stays `0`. -/
def detect_count (bound : List String) (kwargs : List (String × PyVal)) :
    List (String × PyType) → Except ExecError Nat
  | [] => .ok 0
  | (k, t) :: rest =>
    if bound.contains k then detect_count bound kwargs rest
    else
      match lookup kwargs k with
      | none => .error (ExecError.keyError k)
      | some (PyVal.list (x :: xs)) =>
        if x.isinstance t then .ok (x :: xs).length else .error (ExecError.inputShape k)
      | some _ => .error (ExecError.inputShape k)

/-- Python subscription `kwargs[k][i]`: lists index into their elements, strings
index into one-character strings, ints raise `TypeError`; out-of-range raises
`IndexError`. -/
def elem_at (k : String) : PyVal → Nat → Except ExecError PyVal
  | PyVal.list xs, i =>
    match xs[i]? with
    | some x => .ok (PyVal.scalar x)
    | none => .error (ExecError.indexError k)
  | PyVal.scalar (PyScalar.str s), i =>
    match s.data[i]? with
    | some c => .ok (PyVal.scalar (PyScalar.str (String.mk [c])))
    | none => .error (ExecError.indexError k)
  | PyVal.scalar (PyScalar.int _), _ => .error (ExecError.notSubscriptable k)

/-- Per-invocation native input map `single_instance_inputs` (source lines
130-135): for each declared key, a key in `bound_inputs` gets `kwargs[k]`
verbatim, any other key gets `kwargs[k][i]`. -/
def build_inputs (bound : List String) (kwargs : List (String × PyVal)) (i : Nat) :
    List (String × PyType) → Except ExecError (List (String × PyVal))
  | [] => .ok []
  | (k, _) :: rest =>
    match lookup kwargs k with
    | none => .error (ExecError.keyError k)
    | some v =>
      if bound.contains k then
        match build_inputs bound kwargs i rest with
        | .ok m => .ok ((k, v) :: m)
        | .error e => .error e
      else
        match elem_at k v i with
        | .ok x =>
          match build_inputs bound kwargs i rest with
          | .ok m => .ok ((k, x) :: m)
          | .error e => .error e
        | .error e => .error e

/-- Modelled from the spec: the value translation performed by
`translate_inputs_to_literals` (`flytekit/core/promise.py`, not part of src/).
Spec section 4.3: each native value is converted to the engine's typed value
representation using the target's declared per-field type; a mismatch is a
translation error, not a tolerated sub-invocation failure. -/
def translateValue : PyVal → PyType → Except String Literal
  | PyVal.scalar (PyScalar.int n), PyType.int => .ok (Literal.scalarInt n)
  | PyVal.scalar (PyScalar.str s), PyType.str => .ok (Literal.scalarStr s)
  | _, _ => .error "type mismatch"

/-- Modelled from the spec: `translate_inputs_to_literals` over the whole
per-invocation map, field by field against the declared types. -/
def translate_inputs_to_literals (types : List (String × PyType)) :
    List (String × PyVal) → Except String (List (String × Literal))
  | [] => .ok []
  | (k, v) :: rest =>
    match lookup types k with
    | none => .error k
    | some t =>
      match translateValue v t with
      | .error s => .error s
      | .ok lit =>
        match translate_inputs_to_literals types rest with
        | .ok m => .ok ((k, lit) :: m)
        | .error s => .error s

/-- Native inputs of sub-invocation `i` (source lines 130-135). -/
def sub_native_inputs (node : ArrayNode) (kwargs : List (String × PyVal)) (i : Nat) :
    Except ExecError (List (String × PyVal)) :=
  build_inputs node.bound_inputs kwargs i node.target.interface.inputs

/-- Typed inputs of sub-invocation `i`: the native map built and then translated
(source lines 130-145); both steps happen outside the `try`, so their errors
propagate and are never tolerated. -/
def sub_literal_inputs (node : ArrayNode) (kwargs : List (String × PyVal)) (i : Nat) :
    Except ExecError (List (String × Literal)) :=
  match sub_native_inputs node kwargs i with
  | .error e => .error e
  | .ok m =>
    match translate_inputs_to_literals node.target.interface.inputs m with
    | .error s => .error (ExecError.translationError s)
    | .ok lm => .ok lm

/-- Threshold resolution (source lines 121-126), with Python truthiness:
`min_successes` starts at the mapped count, an explicit truthy `_min_successes`
overrides it, else a truthy `_min_success_ratio` gives `ceil(count * ratio)`. -/
def resolve_min_successes (ms : Option Int) (msr : Option Frac) (n : Nat) : Int :=
  if pyTruthyInt ms then ms.getD 0
  else if pyTruthyFrac msr then ceilMul n (msr.getD ⟨0, 1⟩)
  else (n : Int)

/-- The fan-out loop (source lines 128-159) over the remaining indices, carrying
`failed_count` and the `literals` accumulator.  Per index: build and translate
inputs (errors propagate), invoke the target; on success append the output when
one is expected; on failure, when an output is expected, append the
none-sentinel, bump `failed_count` and abort with the triggering error once
`count - failed_count < min_successes`; with no output expected the failure is
swallowed. -/
def fan_out_loop (oe : Bool) (n : Nat) (minS : Int)
    (ins : Nat → Except ExecError (List (String × Literal)))
    (invoke : List (String × Literal) → Except String Literal) :
    List Nat → Nat → List Literal → Except ExecError (List Literal)
  | [], _, acc => .ok acc
  | i :: rest, failed, acc =>
    match ins i with
    | .error e => .error e
    | .ok m =>
      match invoke m with
      | .ok out =>
        fan_out_loop oe n minS ins invoke rest failed (if oe then acc ++ [out] else acc)
      | .error exc =>
        if oe then
          if (n : Int) - ((failed : Int) + 1) < minS then .error (ExecError.subError exc)
          else fan_out_loop oe n minS ins invoke rest (failed + 1) (acc ++ [Literal.noneVal])
        else fan_out_loop oe n minS ins invoke rest failed acc

/-- Whether the call produces outputs (source lines 105-107, from the node's
advertised interface). -/
def outputs_expected (node : ArrayNode) : Bool :=
  !node.collection_interface.outputs.isEmpty

/-- Models `ArrayNode.local_execute` (source lines 104-163): detect the mapped
count, resolve the threshold, run the fan-out loop over indices `0..n-1`, and
wrap the collected literals in a promise (or return a void promise). -/
def ArrayNode.local_execute (node : ArrayNode) (kwargs : List (String × PyVal))
    (invoke : List (String × Literal) → Except String Literal) :
    Except ExecError ExecResult :=
  let oe := outputs_expected node
  match detect_count node.bound_inputs kwargs node.target.interface.inputs with
  | .error e => .error e
  | .ok n =>
    let minS := resolve_min_successes node.min_successes node.min_success_ratio n
    match fan_out_loop oe n minS (sub_literal_inputs node kwargs) invoke (List.range n) 0 [] with
    | .error e => .error e
    | .ok lits =>
      if oe then .ok (ExecResult.promise lits) else .ok (ExecResult.voidPromise node.target.name)

/-! ### Execution characterization

The fan-out loop is related to a declarative description: the run aborts at the
first index whose sub-invocation fails while the budget is exhausted, and
otherwise completes with one slot per index (the output value on success, the
none-sentinel on a tolerated failure). -/

/-- Boolean success test for an `Except` value. -/
def isOkE : Except e1 a1 → Bool
  | .ok _ => true
  | .error _ => false

/-- Boolean failure test for a sub-invocation outcome. -/
def isFailure : Except String Literal → Bool
  | .error _ => true
  | .ok _ => false

/-- Error message carried by a failed outcome (empty for a success). -/
def errMsg : Except String Literal → String
  | .error s => s
  | .ok _ => ""

/-- Slot recorded for an outcome: the output value, or the none-sentinel. -/
def slotOf (f : Nat → Except String Literal) (i : Nat) : Literal :=
  match f i with
  | .ok v => v
  | .error _ => Literal.noneVal

/-- Outcome of sub-invocation `i`: the target applied to the typed inputs of
index `i` (only meaningful where the inputs build successfully). -/
def evalIdx (ins : Nat → Except ExecError (List (String × Literal)))
    (invoke : List (String × Literal) → Except String Literal) (i : Nat) :
    Except String Literal :=
  match ins i with
  | .ok m => invoke m
  | .error _ => .error ""

/-- Number of failed outcomes among indices `0..i-1`. -/
def failedIn (f : Nat → Except String Literal) (i : Nat) : Nat :=
  ((List.range i).filter (fun j => isFailure (f j))).length

/-- The abort test the engine evaluates right after a failure at index `i`:
the outcome failed and `n - failed_count < min_successes` with `failed_count`
already incremented. -/
def abortAtB (n : Nat) (minS : Int) (f : Nat → Except String Literal) (i : Nat) : Bool :=
  isFailure (f i) && decide ((n : Int) - ((failedIn f i : Int) + 1) < minS)

/-- Decidable equality for `Except`, so that concrete runs evaluate by `decide`. -/
instance instDecEqExcept {e1 a1 : Type} [DecidableEq e1] [DecidableEq a1] :
    DecidableEq (Except e1 a1)
  | .ok a, .ok b =>
    if h : a = b then .isTrue (by rw [h]) else .isFalse (by intro hc; cases hc; exact h rfl)
  | .ok _, .error _ => .isFalse (by intro hc; cases hc)
  | .error _, .ok _ => .isFalse (by intro hc; cases hc)
  | .error d, .error e =>
    if h : d = e then .isTrue (by rw [h]) else .isFalse (by intro hc; cases hc; exact h rfl)

/-- First declared input key not in the bound set, with its declared type; this
is the single field the detection loop (source lines 109-119) ever validates. -/
def first_unbound (bound : List String) : List (String × PyType) → Option (String × PyType)
  | [] => none
  | (k, t) :: rest => if bound.contains k then first_unbound bound rest else some (k, t)

/-- Test the detection loop applies to the first unbound field's value: missing,
not a list, an empty list, or a first element failing the `isinstance` check. -/
def shape_bad : Option PyVal → PyType → Bool
  | none, _ => true
  | some (PyVal.list (x :: _)), t => !(x.isinstance t)
  | some (PyVal.list []), _ => true
  | some (PyVal.scalar _), _ => true

/-- Error the detection loop raises on a bad first unbound field: `KeyError` when
the kwarg is missing, the validation `ValueError` otherwise. -/
def shape_error : Option PyVal → String → ExecError
  | none, k => ExecError.keyError k
  | some _, k => ExecError.inputShape k

/-- Whether the derived interface declares its (single) output collection with
Optional-wrapped elements. -/
def output_optional_wrapped (ci : LInterface) : Bool :=
  match ci.outputs with
  | [(_, LType.listOf (LType.optional _))] => true
  | _ => false

/-! ### Concrete fixtures for witnesses and counterexamples -/

/-- A launch plan `x: int -> int`. -/
def tgtInt : Target :=
  { name := "lp", kind := TargetKind.launchPlan,
    interface := { inputs := [("x", PyType.int)], outputs := [("o", PyType.int)] } }

/-- A void launch plan `x: int -> ()`. -/
def tgtVoid : Target :=
  { name := "lpv", kind := TargetKind.launchPlan,
    interface := { inputs := [("x", PyType.int)], outputs := [] } }

/-- A launch plan declaring two outputs. -/
def tgtTwoOut : Target :=
  { name := "lp2", kind := TargetKind.launchPlan,
    interface := { inputs := [("x", PyType.int)],
                   outputs := [("a", PyType.int), ("b", PyType.int)] } }

/-- A launch plan with a mapped input `x` and a second input `y`. -/
def tgtPair : Target :=
  { name := "lpp", kind := TargetKind.launchPlan,
    interface := { inputs := [("x", PyType.int), ("y", PyType.int)],
                   outputs := [("o", PyType.int)] } }

/-- A launch plan whose only input will be bound. -/
def tgtOnlyBound : Target :=
  { name := "lpb", kind := TargetKind.launchPlan,
    interface := { inputs := [("y", PyType.int)], outputs := [("o", PyType.int)] } }

/-- Placeholder node used only as the default of `Except.toOption.getD`. -/
def dummyNode : ArrayNode :=
  { target := tgtInt, concurrency := none, min_successes := none, min_success_ratio := none,
    bound_inputs := [], execution_version := 1, metadata := none,
    collection_interface := { inputs := [], outputs := [] } }

/-- Node over `tgtInt` with no tolerance configured. -/
def nodeZeroTol : ArrayNode :=
  (ArrayNode.init tgtInt none none none none none none).toOption.getD dummyNode

/-- Node over `tgtInt` with `min_success_ratio = 3/4`. -/
def nodeTol : ArrayNode :=
  (ArrayNode.init tgtInt none none (some ⟨3, 4⟩) none none none).toOption.getD dummyNode

/-- Node over `tgtInt` with explicit `min_successes = 1` and no ratio. -/
def nodeMs1 : ArrayNode :=
  (ArrayNode.init tgtInt none (some 1) none none none none).toOption.getD dummyNode

/-- Node over the void target with no tolerance configured. -/
def nodeVoid : ArrayNode :=
  (ArrayNode.init tgtVoid none none none none none none).toOption.getD dummyNode

/-- Node over `tgtPair` binding `y`. -/
def nodeBound : ArrayNode :=
  (ArrayNode.init tgtPair none none none (some ["y"]) none none).toOption.getD dummyNode

/-- Node over `tgtOnlyBound` binding its only input, so the mapped count is 0. -/
def nodeAllBound : ArrayNode :=
  (ArrayNode.init tgtOnlyBound none none none (some ["y"]) none none).toOption.getD dummyNode

/-- Target behaviour failing exactly on negative `x`, else returning `x + 1`. -/
def invokeNeg : List (String × Literal) → Except String Literal :=
  fun m =>
    match lookup m "x" with
    | some (Literal.scalarInt nn) =>
      if nn < 0 then .error "neg" else .ok (Literal.scalarInt (nn + 1))
    | _ => .error "missing"

/-- Target behaviour failing on every input. -/
def invokeBoom : List (String × Literal) → Except String Literal :=
  fun _ => .error "boom"

/-- Target behaviour agreeing with `invokeNeg` on `x = -1` but succeeding
everywhere else (in particular on other negative values). -/
def invokeAlt : List (String × Literal) → Except String Literal :=
  fun m =>
    match lookup m "x" with
    | some (Literal.scalarInt nn) =>
      if nn == -1 then .error "neg" else .ok (Literal.scalarInt 999)
    | _ => .error "missing"

/-- Kwargs with a single mapped field `x` holding the given ints. -/
def kwInts (xs : List Int) : List (String × PyVal) :=
  [("x", PyVal.list (xs.map PyScalar.int))]

/-- Scenario A inputs: `x = [1, 2, 3, -1]`. -/
def kwA : List (String × PyVal) := kwInts [1, 2, 3, -1]

/-- Abort-scenario inputs: `x = [-1, -1, -5, 7]`. -/
def kwC : List (String × PyVal) := kwInts [-1, -1, -5, 7]

/-- Inputs for the bound-broadcast witness: mapped `x`, bound `y`. -/
def kwB : List (String × PyVal) :=
  [("x", PyVal.list [PyScalar.int 1, PyScalar.int 2]), ("y", PyVal.scalar (PyScalar.int 5))]

/-- Inputs for the all-bound node: just the bound `y`. -/
def kwY : List (String × PyVal) := [("y", PyVal.scalar (PyScalar.int 5))]

/-- The native input map of sub-invocation 1 for the bound-broadcast witness. -/
def mB : List (String × PyVal) := (sub_native_inputs nodeBound kwB 1).toOption.getD []

theorem failedIn_zero (f : Nat → Except String Literal) : failedIn f 0 = 0 := rfl

theorem failedIn_succ (f : Nat → Except String Literal) (i : Nat) :
    failedIn f (i + 1) = failedIn f i + (if isFailure (f i) then 1 else 0) := by
  unfold failedIn
  rw [List.range_succ, List.filter_append, List.length_append]
  by_cases h : isFailure (f i) <;> simp [h]

theorem failedIn_congr (f g : Nat → Except String Literal) (i : Nat)
    (h : ∀ l, l < i → g l = f l) : failedIn g i = failedIn f i := by
  unfold failedIn
  congr 1
  apply List.filter_congr
  intro j hj
  rw [h j (List.mem_range.mp hj)]

theorem abortAtB_congr (n : Nat) (minS : Int) (f g : Nat → Except String Literal)
    (j : Nat) (h : ∀ l, l ≤ j → g l = f l) :
    ∀ l, l ≤ j → abortAtB n minS g l = abortAtB n minS f l := by
  intro l hl
  unfold abortAtB
  rw [h l hl, failedIn_congr f g l (fun t ht => h t (by omega))]

theorem find?_range'_congr (p q : Nat → Bool) :
    ∀ (k s j : Nat), (List.range' s k).find? p = some j → (∀ l, l ≤ j → q l = p l) →
      (List.range' s k).find? q = some j := by
  intro k
  induction k with
  | zero =>
    intro s j h hq
    simp [List.range'] at h
  | succ k ih =>
    intro s j h hq
    rw [List.range'_succ] at h ⊢
    by_cases hp : p s = true
    · rw [List.find?_cons_of_pos _ hp] at h
      cases h
      exact List.find?_cons_of_pos _ (by rw [hq s (Nat.le_refl s)]; exact hp)
    · rw [List.find?_cons_of_neg _ (by simpa using hp)] at h
      have hj : j ∈ List.range' (s + 1) k := List.mem_of_find?_eq_some h
      have hsj : s + 1 ≤ j := (List.mem_range'_1.mp hj).1
      rw [List.find?_cons_of_neg _ (by rw [hq s (by omega)]; simpa using hp)]
      exact ih _ _ h hq

theorem find?_range'_first (p : Nat → Bool) :
    ∀ (k s i : Nat), s ≤ i → i < s + k → p i = true →
      (∀ l, s ≤ l → l < i → p l = false) → (List.range' s k).find? p = some i := by
  intro k
  induction k with
  | zero => intro s i h1 h2 _ _; omega
  | succ k ih =>
    intro s i h1 h2 hp hprev
    rw [List.range'_succ]
    by_cases hsi : s = i
    · subst hsi
      exact List.find?_cons_of_pos _ hp
    · have hps : p s = false := hprev s (Nat.le_refl s) (by omega)
      rw [List.find?_cons_of_neg _ (by simp [hps])]
      exact ih (s + 1) i (by omega) (by omega) hp (fun l hl1 hl2 => hprev l (by omega) hl2)

/-- Declarative characterization of the fan-out loop when outputs are expected:
starting at index `i` with the failure count accumulated so far, the loop
aborts with the error of the first index satisfying the abort test, and
otherwise appends one slot per index. -/
theorem fan_out_loop_spec (n : Nat) (minS : Int)
    (ins : Nat → Except ExecError (List (String × Literal)))
    (invoke : List (String × Literal) → Except String Literal)
    (hins : ∀ j, j < n → isOkE (ins j) = true) :
    ∀ (k i : Nat) (acc : List Literal), i + k ≤ n →
      fan_out_loop true n minS ins invoke (List.range' i k)
          (failedIn (evalIdx ins invoke) i) acc =
        match (List.range' i k).find? (abortAtB n minS (evalIdx ins invoke)) with
        | some j => .error (ExecError.subError (errMsg (evalIdx ins invoke j)))
        | none => .ok (acc ++ (List.range' i k).map (slotOf (evalIdx ins invoke))) := by
  intro k
  induction k with
  | zero =>
    intro i acc h
    simp [fan_out_loop, List.range']
  | succ k ih =>
    intro i acc h
    have hi : i < n := by omega
    have hok := hins i hi
    rw [List.range'_succ]
    cases hm : ins i with
    | error e => rw [hm] at hok; simp [isOkE] at hok
    | ok m =>
      have hev : evalIdx ins invoke i = invoke m := by simp [evalIdx, hm]
      cases hinv : invoke m with
      | ok out =>
        have hnf : isFailure (evalIdx ins invoke i) = false := by
          rw [hev, hinv]; rfl
        have hab : abortAtB n minS (evalIdx ins invoke) i = false := by
          simp [abortAtB, hnf]
        have hfs : failedIn (evalIdx ins invoke) (i + 1) = failedIn (evalIdx ins invoke) i := by
          rw [failedIn_succ, hnf]; simp
        have hslot : slotOf (evalIdx ins invoke) i = out := by
          simp [slotOf, hev, hinv]
        rw [show fan_out_loop true n minS ins invoke (i :: List.range' (i + 1) k)
              (failedIn (evalIdx ins invoke) i) acc =
            fan_out_loop true n minS ins invoke (List.range' (i + 1) k)
              (failedIn (evalIdx ins invoke) i) (acc ++ [out]) by
          simp [fan_out_loop, hm, hinv]]
        rw [List.find?_cons_of_neg _ (by simp [hab]), ← hfs]
        rw [ih (i + 1) (acc ++ [out]) (by omega)]
        cases hfind : (List.range' (i + 1) k).find? (abortAtB n minS (evalIdx ins invoke)) with
        | some j => simp
        | none => simp [hslot]
      | error exc =>
        have hf : isFailure (evalIdx ins invoke i) = true := by
          rw [hev, hinv]; rfl
        have hmsg : errMsg (evalIdx ins invoke i) = exc := by
          rw [hev, hinv]; rfl
        have hslot : slotOf (evalIdx ins invoke) i = Literal.noneVal := by
          simp [slotOf, hev, hinv]
        have hfs : failedIn (evalIdx ins invoke) (i + 1) = failedIn (evalIdx ins invoke) i + 1 := by
          rw [failedIn_succ, hf]
          simp
        by_cases hc : (n : Int) - ((failedIn (evalIdx ins invoke) i : Int) + 1) < minS
        · have hab : abortAtB n minS (evalIdx ins invoke) i = true := by
            simp [abortAtB, hf, hc]
          rw [show fan_out_loop true n minS ins invoke (i :: List.range' (i + 1) k)
                (failedIn (evalIdx ins invoke) i) acc =
              .error (ExecError.subError exc) by
            simp [fan_out_loop, hm, hinv, hc]]
          rw [List.find?_cons_of_pos _ hab]
          simp [hmsg]
        · have hab : abortAtB n minS (evalIdx ins invoke) i = false := by
            simp [abortAtB, hf, hc]
          rw [show fan_out_loop true n minS ins invoke (i :: List.range' (i + 1) k)
                (failedIn (evalIdx ins invoke) i) acc =
              fan_out_loop true n minS ins invoke (List.range' (i + 1) k)
                (failedIn (evalIdx ins invoke) i + 1) (acc ++ [Literal.noneVal]) by
            simp [fan_out_loop, hm, hinv, hc]]
          rw [List.find?_cons_of_neg _ (by simp [hab]), ← hfs]
          rw [ih (i + 1) (acc ++ [Literal.noneVal]) (by omega)]
          cases hfind : (List.range' (i + 1) k).find? (abortAtB n minS (evalIdx ins invoke)) with
          | some j => simp
          | none => simp [hslot]

/-- With no output expected the loop swallows failures entirely: provided the
per-index inputs build, it completes and appends nothing. -/
theorem fan_out_loop_void (n : Nat) (minS : Int)
    (ins : Nat → Except ExecError (List (String × Literal)))
    (invoke : List (String × Literal) → Except String Literal) :
    ∀ (idxs : List Nat) (failed : Nat) (acc : List Literal),
      (∀ j, j ∈ idxs → isOkE (ins j) = true) →
      fan_out_loop false n minS ins invoke idxs failed acc = .ok acc := by
  intro idxs
  induction idxs with
  | nil =>
    intro failed acc h
    simp [fan_out_loop]
  | cons i rest ih =>
    intro failed acc h
    have hok := h i (by simp)
    cases hm : ins i with
    | error e => rw [hm] at hok; simp [isOkE] at hok
    | ok m =>
      cases hinv : invoke m with
      | ok out =>
        rw [show fan_out_loop false n minS ins invoke (i :: rest) failed acc =
            fan_out_loop false n minS ins invoke rest failed acc by
          simp [fan_out_loop, hm, hinv]]
        exact ih failed acc (fun j hj => h j (by simp [hj]))
      | error exc =>
        rw [show fan_out_loop false n minS ins invoke (i :: rest) failed acc =
            fan_out_loop false n minS ins invoke rest failed acc by
          simp [fan_out_loop, hm, hinv]]
        exact ih failed acc (fun j hj => h j (by simp [hj]))

/-- Characterization of `local_execute` when outputs are expected and every
per-index input builds: the call returns the error of the first aborting index,
or the positionally aligned collection. -/
theorem local_execute_run (node : ArrayNode) (kwargs : List (String × PyVal))
    (invoke : List (String × Literal) → Except String Literal) (n : Nat)
    (hn : detect_count node.bound_inputs kwargs node.target.interface.inputs = .ok n)
    (hoe : outputs_expected node = true)
    (hins : ∀ j, j < n → isOkE (sub_literal_inputs node kwargs j) = true) :
    node.local_execute kwargs invoke =
      match (List.range n).find?
          (abortAtB n (resolve_min_successes node.min_successes node.min_success_ratio n)
            (evalIdx (sub_literal_inputs node kwargs) invoke)) with
      | some j =>
        .error (ExecError.subError (errMsg (evalIdx (sub_literal_inputs node kwargs) invoke j)))
      | none =>
        .ok (ExecResult.promise
          ((List.range n).map (slotOf (evalIdx (sub_literal_inputs node kwargs) invoke)))) := by
  unfold ArrayNode.local_execute
  rw [hn, hoe]
  simp only []
  rw [show (0 : Nat) = failedIn (evalIdx (sub_literal_inputs node kwargs) invoke) 0 from rfl]
  rw [List.range_eq_range']
  rw [fan_out_loop_spec n (resolve_min_successes node.min_successes node.min_success_ratio n)
    (sub_literal_inputs node kwargs) invoke hins n 0 [] (by omega)]
  cases hfind : (List.range' 0 n).find?
      (abortAtB n (resolve_min_successes node.min_successes node.min_success_ratio n)
        (evalIdx (sub_literal_inputs node kwargs) invoke)) with
  | some j => simp
  | none => simp

/-- The value `ceilMul n q` is the ceiling of the rational `n * q.num / q.den`:
it is the least integer `m` with `n * q.num ≤ q.den * m`. -/
theorem ceilMul_is_ceil (n : Nat) (q : Frac) (hden : 0 < q.den) :
    (n : Int) * q.num ≤ q.den * ceilMul n q
    ∧ ∀ m : Int, (n : Int) * q.num ≤ q.den * m → ceilMul n q ≤ m := by
  constructor
  · have hid := Int.ediv_add_emod (-((n : Int) * q.num)) q.den
    have hnn : 0 ≤ (-((n : Int) * q.num)) % q.den :=
      Int.emod_nonneg (-((n : Int) * q.num)) (by omega)
    unfold ceilMul
    have hr : q.den * (-((-((n : Int) * q.num)) / q.den)) =
        -(q.den * ((-((n : Int) * q.num)) / q.den)) := by ring
    rw [hr]
    omega
  · intro m hm
    unfold ceilMul
    have h1 : (-m) * q.den ≤ -((n : Int) * q.num) := by
      have : (-m) * q.den = -(q.den * m) := by ring
      omega
    have h2 : -m ≤ (-((n : Int) * q.num)) / q.den :=
      (Int.le_ediv_iff_mul_le hden).mpr h1
    omega

/-- Detection stops at the first unbound field: when that field's kwarg is
missing or fails the list / non-empty / first-element-instance check, the
detection loop raises the corresponding error. -/
theorem detect_count_first_bad (bound : List String) (kwargs : List (String × PyVal))
    (k : String) (t : PyType) :
    ∀ inputs : List (String × PyType),
      first_unbound bound inputs = some (k, t) → shape_bad (lookup kwargs k) t = true →
      detect_count bound kwargs inputs = .error (shape_error (lookup kwargs k) k) := by
  intro inputs
  induction inputs with
  | nil => intro h _; simp [first_unbound] at h
  | cons kt rest ih =>
    obtain ⟨k0, t0⟩ := kt
    intro h hbad
    by_cases hb : bound.contains k0 = true
    · rw [first_unbound, if_pos hb] at h
      rw [detect_count, if_pos hb]
      exact ih h hbad
    · rw [first_unbound, if_neg hb] at h
      have hk : k0 = k ∧ t0 = t := by
        have := Option.some.inj h
        exact ⟨congrArg Prod.fst this, congrArg Prod.snd this⟩
      obtain ⟨hk1, hk2⟩ := hk
      subst hk1
      subst hk2
      rw [detect_count, if_neg hb]
      cases hl : lookup kwargs k0 with
      | none => simp [shape_error]
      | some v =>
        cases v with
        | scalar s => simp [shape_error]
        | list xs =>
          cases xs with
          | nil => simp [shape_error]
          | cons x rest2 =>
            rw [hl] at hbad
            simp only [shape_bad, Bool.not_eq_true'] at hbad
            simp [shape_error, hbad]

/-- Per-invocation input construction, field by field: a bound field receives
the kwarg value verbatim, an unbound field receives the element at the
invocation index. -/
theorem build_inputs_mem (bound : List String) (kwargs : List (String × PyVal)) (i : Nat) :
    ∀ (inputs : List (String × PyType)) (m : List (String × PyVal)),
      build_inputs bound kwargs i inputs = .ok m →
      ∀ k t, (k, t) ∈ inputs →
        (bound.contains k = true → ∃ v, lookup kwargs k = some v ∧ (k, v) ∈ m)
        ∧ (bound.contains k = false →
            ∃ v x, lookup kwargs k = some v ∧ elem_at k v i = .ok x ∧ (k, x) ∈ m) := by
  intro inputs
  induction inputs with
  | nil => intro m _ k t hmem; simp at hmem
  | cons kt rest ih =>
    obtain ⟨k0, t0⟩ := kt
    intro m h k t hmem
    rw [build_inputs] at h
    cases hl : lookup kwargs k0 with
    | none => rw [hl] at h; cases h
    | some v0 =>
      rw [hl] at h
      by_cases hb : bound.contains k0 = true
      · simp only [hb, if_true] at h
        cases hrec : build_inputs bound kwargs i rest with
        | error e => rw [hrec] at h; cases h
        | ok m0 =>
          rw [hrec] at h
          cases h
          rcases List.mem_cons.mp hmem with heq | hmem0
          · have hk1 : k = k0 := congrArg Prod.fst heq
            subst hk1
            constructor
            · intro _; exact ⟨v0, hl, List.mem_cons_self _ _⟩
            · intro hc; rw [hb] at hc; cases hc
          · have := ih m0 hrec k t hmem0
            exact ⟨fun hc => by
                obtain ⟨v, hv, hm⟩ := this.1 hc
                exact ⟨v, hv, List.mem_cons_of_mem _ hm⟩,
              fun hc => by
                obtain ⟨v, x, hv, hx, hm⟩ := this.2 hc
                exact ⟨v, x, hv, hx, List.mem_cons_of_mem _ hm⟩⟩
      · rw [Bool.not_eq_true] at hb
        simp only [hb, Bool.false_eq_true, if_false] at h
        cases hx0 : elem_at k0 v0 i with
        | error e => rw [hx0] at h; cases h
        | ok x0 =>
          rw [hx0] at h
          cases hrec : build_inputs bound kwargs i rest with
          | error e => rw [hrec] at h; cases h
          | ok m0 =>
            rw [hrec] at h
            cases h
            rcases List.mem_cons.mp hmem with heq | hmem0
            · have hk1 : k = k0 := congrArg Prod.fst heq
              subst hk1
              constructor
              · intro hc; rw [hc] at hb; cases hb
              · intro _; exact ⟨v0, x0, hl, hx0, List.mem_cons_self _ _⟩
            · have := ih m0 hrec k t hmem0
              exact ⟨fun hc => by
                  obtain ⟨v, hv, hm⟩ := this.1 hc
                  exact ⟨v, hv, List.mem_cons_of_mem _ hm⟩,
                fun hc => by
                  obtain ⟨v, x, hv, hx, hm⟩ := this.2 hc
                  exact ⟨v, x, hv, hx, List.mem_cons_of_mem _ hm⟩⟩

/-! ### Claims -/

/-- C10: constructing the node with an explicit `min_successes` of 0 behaves
exactly as if `min_successes` were unset, because the threshold resolution tests
Python truthiness rather than presence: the effective threshold falls back to
the ratio ceiling when a ratio is configured, and otherwise to the mapped count
`n`, so `min_successes = 0` does not grant unlimited failure tolerance. -/
theorem C10_zero_min_successes_falls_back (msr : Option Frac) (n : Nat) :
    resolve_min_successes (some 0) msr n = resolve_min_successes none msr n
    ∧ resolve_min_successes (some 0) none n = (n : Int) := by
  constructor
  · rfl
  · rfl

/-- C2 refuted at a concrete input: with `min_successes` explicitly given as `0`
and ratio `1/2` over 10 entries, the effective threshold is the ratio ceiling
`5`, not the explicit value `0` the claim promises. -/
theorem C2_counterexample :
    resolve_min_successes (some 0) (some ⟨1, 2⟩) 10 = 5
    ∧ ¬ resolve_min_successes (some 0) (some ⟨1, 2⟩) 10 = 0 := by
  decide

/-- C2 (amended): the effective threshold equals the explicit `min_successes`
when one is given and nonzero; otherwise, when a nonzero ratio `q` is given, it
is the ceiling of `n * q` (the least integer `m` with `n * q.num ≤ q.den * m`);
otherwise it is `n` (zero tolerance). -/
theorem C2_amended_threshold (ms : Option Int) (msr : Option Frac) (n : Nat) :
    (∀ m : Int, ms = some m → m ≠ 0 → resolve_min_successes ms msr n = m)
    ∧ (∀ q : Frac, pyTruthyInt ms = false → msr = some q → q.num ≠ 0 → 0 < q.den →
        ((n : Int) * q.num ≤ q.den * resolve_min_successes ms msr n
         ∧ ∀ m : Int, (n : Int) * q.num ≤ q.den * m → resolve_min_successes ms msr n ≤ m))
    ∧ (pyTruthyInt ms = false → pyTruthyFrac msr = false →
        resolve_min_successes ms msr n = (n : Int)) := by
  refine ⟨?_, ?_, ?_⟩
  · intro m hms hm
    subst hms
    have ht : pyTruthyInt (some m) = true := by
      simp [pyTruthyInt, hm]
    simp [resolve_min_successes, ht]
  · intro q hms hmsr hnum hden
    subst hmsr
    have ht : pyTruthyFrac (some q) = true := by
      simp [pyTruthyFrac, Frac.isZero, hnum]
    have hres : resolve_min_successes ms (some q) n = ceilMul n q := by
      simp [resolve_min_successes, hms, ht]
    rw [hres]
    exact ceilMul_is_ceil n q hden
  · intro h1 h2
    simp [resolve_min_successes, h1, h2]

/-- C2 witness: the explicit nonzero count wins over a configured ratio, and the
spec's worked examples hold. -/
theorem C2_amended_threshold_witness :
    resolve_min_successes (some 5) (some ⟨1, 2⟩) 10 = 5
    ∧ resolve_min_successes none (some ⟨1, 2⟩) 10 = 5
    ∧ resolve_min_successes none (some ⟨4, 5⟩) 7 = 6
    ∧ resolve_min_successes none none 9 = 9 := by
  refine ⟨(C2_amended_threshold (some 5) (some ⟨1, 2⟩) 10).1 5 rfl (by decide),
    by decide, by decide,
    (C2_amended_threshold none none 9).2.2 rfl rfl⟩

/-- C6: when the mapped count is 0 the call performs no sub-invocations (the
result does not depend on the target's behaviour at all), no failure is
possible, and it immediately returns an empty collection, or a void
acknowledgement for a void target. -/
theorem C6_zero_count (node : ArrayNode) (kwargs : List (String × PyVal))
    (invoke : List (String × Literal) → Except String Literal)
    (h0 : detect_count node.bound_inputs kwargs node.target.interface.inputs = .ok 0) :
    (outputs_expected node = true →
      node.local_execute kwargs invoke = .ok (ExecResult.promise []))
    ∧ (outputs_expected node = false →
      node.local_execute kwargs invoke = .ok (ExecResult.voidPromise node.target.name))
    ∧ (∀ invoke2, node.local_execute kwargs invoke2 = node.local_execute kwargs invoke) := by
  have hbase : ∀ g, node.local_execute kwargs g =
      (if outputs_expected node then Except.ok (ExecResult.promise [])
       else Except.ok (ExecResult.voidPromise node.target.name)) := by
    intro g
    unfold ArrayNode.local_execute
    rw [h0]
    cases ho : outputs_expected node <;> simp [ho, fan_out_loop]
  refine ⟨fun h => by rw [hbase invoke, h]; simp,
    fun h => by rw [hbase invoke, h]; simp,
    fun invoke2 => by rw [hbase invoke2, hbase invoke]⟩

/-- C6 witness: a node whose single input is bound detects a mapped count of 0
and returns the empty collection even under an always-failing target. -/
theorem C6_zero_count_witness :
    detect_count nodeAllBound.bound_inputs kwY nodeAllBound.target.interface.inputs = .ok 0
    ∧ nodeAllBound.local_execute kwY invokeBoom = .ok (ExecResult.promise []) := by
  refine ⟨by decide, ?_⟩
  exact (C6_zero_count nodeAllBound kwY invokeBoom (by decide)).1 (by decide)

/-- C4 refuted: a void-target call whose only sub-invocation fails under zero
tolerance completes with the void acknowledgement instead of re-raising the
triggering error; the budget logic never runs for void targets. -/
theorem C4_counterexample :
    nodeVoid.local_execute (kwInts [1]) invokeBoom = .ok (ExecResult.voidPromise "lpv")
    ∧ ¬ nodeVoid.local_execute (kwInts [1]) invokeBoom = .error (ExecError.subError "boom") := by
  decide

/-- C4 (amended): for a void target the budget logic does not run on failure:
sub-invocation failures are neither counted nor able to abort, nothing is
appended to the result sequence, and the call completes with a void
acknowledgement regardless of the target's behaviour. -/
theorem C4_void_failures_swallowed (node : ArrayNode) (kwargs : List (String × PyVal))
    (invoke : List (String × Literal) → Except String Literal) (n : Nat)
    (hn : detect_count node.bound_inputs kwargs node.target.interface.inputs = .ok n)
    (hoe : outputs_expected node = false)
    (hins : ∀ j, j < n → isOkE (sub_literal_inputs node kwargs j) = true) :
    node.local_execute kwargs invoke = .ok (ExecResult.voidPromise node.target.name)
    ∧ ∀ invoke2, node.local_execute kwargs invoke2 = node.local_execute kwargs invoke := by
  have hbase : ∀ g, node.local_execute kwargs g =
      .ok (ExecResult.voidPromise node.target.name) := by
    intro g
    unfold ArrayNode.local_execute
    rw [hn, hoe]
    simp only []
    rw [fan_out_loop_void n (resolve_min_successes node.min_successes node.min_success_ratio n)
      (sub_literal_inputs node kwargs) g (List.range n) 0 []
      (fun j hj => hins j (List.mem_range.mp hj))]
    rfl
  exact ⟨hbase invoke, fun invoke2 => by rw [hbase invoke2, hbase invoke]⟩

/-- C4 witness: a two-entry void-target call with an always-failing target still
completes with the void acknowledgement. -/
theorem C4_void_failures_swallowed_witness :
    nodeVoid.local_execute (kwInts [1, -1]) invokeBoom = .ok (ExecResult.voidPromise "lpv") := by
  exact (C4_void_failures_swallowed nodeVoid (kwInts [1, -1]) invokeBoom 2 (by decide) (by decide)
    (by decide)).1

/-- C9: for every declared input, a name in `bound_inputs` has its kwarg value
passed unchanged (not indexed) into the input map of every sub-invocation `i`,
while every non-bound input contributes the element of its kwarg at index `i`. -/
theorem C9_bound_broadcast (node : ArrayNode) (kwargs : List (String × PyVal)) (i : Nat)
    (m : List (String × PyVal))
    (h : sub_native_inputs node kwargs i = .ok m) :
    ∀ k t, (k, t) ∈ node.target.interface.inputs →
      (node.bound_inputs.contains k = true → ∃ v, lookup kwargs k = some v ∧ (k, v) ∈ m)
      ∧ (node.bound_inputs.contains k = false →
          ∃ v x, lookup kwargs k = some v ∧ elem_at k v i = .ok x ∧ (k, x) ∈ m) :=
  build_inputs_mem node.bound_inputs kwargs i node.target.interface.inputs m h

/-- C9 witness: with `y` bound to the scalar 5 and `x` mapped over `[1, 2]`,
sub-invocation 1 receives the bound `y` verbatim and element `2` for `x`. -/
theorem C9_bound_broadcast_witness :
    ("y", PyVal.scalar (PyScalar.int 5)) ∈ mB
    ∧ ("x", PyVal.scalar (PyScalar.int 2)) ∈ mB := by
  have h := C9_bound_broadcast nodeBound kwB 1 mB (by decide)
  have hy := (h "y" PyType.int (by decide)).1 (by decide)
  have hx := (h "x" PyType.int (by decide)).2 (by decide)
  obtain ⟨v, hv, hmemy⟩ := hy
  obtain ⟨w, x, hw, hx2, hmemx⟩ := hx
  have hl5 : lookup kwB "y" = some (PyVal.scalar (PyScalar.int 5)) := by decide
  rw [hl5] at hv
  cases Option.some.inj hv
  have hlx : lookup kwB "x" = some (PyVal.list [PyScalar.int 1, PyScalar.int 2]) := by decide
  rw [hlx] at hw
  cases Option.some.inj hw
  have hel : elem_at "x" (PyVal.list [PyScalar.int 1, PyScalar.int 2]) 1 =
      .ok (PyVal.scalar (PyScalar.int 2)) := by decide
  rw [hel] at hx2
  cases Except.ok.inj hx2
  exact ⟨hmemy, hmemx⟩

/-- C1: with at least one output expected, after each failed sub-invocation the
engine increments the failure count, appends the none-sentinel, and re-raises
the triggering error exactly when `n - failed_count < min_successes`.  Given
that every per-index input builds, that index `i` fails, and that no earlier
index satisfied the abort test: if the budget test fires at `i` the call
returns index `i`'s error, and does so under every target behaviour agreeing up
to index `i`, so no later index is ever invoked; and if no index ever satisfies
the abort test, no sub-invocation error is raised at all. -/
theorem C1_failure_budget_abort (node : ArrayNode) (kwargs : List (String × PyVal))
    (invoke : List (String × Literal) → Except String Literal) (n i : Nat) (e : String)
    (hn : detect_count node.bound_inputs kwargs node.target.interface.inputs = .ok n)
    (hoe : outputs_expected node = true)
    (hins : ∀ j, j < n → isOkE (sub_literal_inputs node kwargs j) = true)
    (hi : i < n)
    (hfi : evalIdx (sub_literal_inputs node kwargs) invoke i = .error e)
    (hprev : ∀ l, l < i →
      abortAtB n (resolve_min_successes node.min_successes node.min_success_ratio n)
        (evalIdx (sub_literal_inputs node kwargs) invoke) l = false) :
    (((n : Int) - ((failedIn (evalIdx (sub_literal_inputs node kwargs) invoke) i : Int) + 1) <
        resolve_min_successes node.min_successes node.min_success_ratio n) →
      (node.local_execute kwargs invoke = .error (ExecError.subError e)
       ∧ ∀ invoke2,
          (∀ l, l ≤ i → evalIdx (sub_literal_inputs node kwargs) invoke2 l =
            evalIdx (sub_literal_inputs node kwargs) invoke l) →
          node.local_execute kwargs invoke2 = .error (ExecError.subError e)))
    ∧ ((∀ l, l < n →
        abortAtB n (resolve_min_successes node.min_successes node.min_success_ratio n)
          (evalIdx (sub_literal_inputs node kwargs) invoke) l = false) →
      ∀ s, ¬ node.local_execute kwargs invoke = .error (ExecError.subError s)) := by
  constructor
  · intro hc
    have hfail : isFailure (evalIdx (sub_literal_inputs node kwargs) invoke i) = true := by
      rw [hfi]; rfl
    have habi : abortAtB n (resolve_min_successes node.min_successes node.min_success_ratio n)
        (evalIdx (sub_literal_inputs node kwargs) invoke) i = true := by
      unfold abortAtB
      rw [hfail]
      simp [hc]
    have hfind : (List.range n).find?
        (abortAtB n (resolve_min_successes node.min_successes node.min_success_ratio n)
          (evalIdx (sub_literal_inputs node kwargs) invoke)) = some i := by
      rw [List.range_eq_range']
      exact find?_range'_first _ n 0 i (Nat.zero_le i) (by omega) habi
        (fun l _ hl => hprev l hl)
    have hmain : node.local_execute kwargs invoke = .error (ExecError.subError e) := by
      rw [local_execute_run node kwargs invoke n hn hoe hins, hfind]
      simp only []
      rw [hfi]
      rfl
    refine ⟨hmain, ?_⟩
    intro invoke2 hagree
    have hagree2 : ∀ l, l ≤ i →
        abortAtB n (resolve_min_successes node.min_successes node.min_success_ratio n)
          (evalIdx (sub_literal_inputs node kwargs) invoke2) l =
        abortAtB n (resolve_min_successes node.min_successes node.min_success_ratio n)
          (evalIdx (sub_literal_inputs node kwargs) invoke) l :=
      abortAtB_congr n (resolve_min_successes node.min_successes node.min_success_ratio n)
        (evalIdx (sub_literal_inputs node kwargs) invoke)
        (evalIdx (sub_literal_inputs node kwargs) invoke2) i hagree
    have hfind2 : (List.range n).find?
        (abortAtB n (resolve_min_successes node.min_successes node.min_success_ratio n)
          (evalIdx (sub_literal_inputs node kwargs) invoke2)) = some i := by
      rw [List.range_eq_range'] at hfind ⊢
      exact find?_range'_congr _ _ n 0 i hfind hagree2
    rw [local_execute_run node kwargs invoke2 n hn hoe hins, hfind2]
    simp only []
    rw [hagree i (Nat.le_refl i), hfi]
    rfl
  · intro hall s
    have hfind : (List.range n).find?
        (abortAtB n (resolve_min_successes node.min_successes node.min_success_ratio n)
          (evalIdx (sub_literal_inputs node kwargs) invoke)) = none := by
      apply List.find?_eq_none.mpr
      intro x hx
      rw [hall x (List.mem_range.mp hx)]
      simp
    rw [local_execute_run node kwargs invoke n hn hoe hins, hfind]
    simp

/-- C1 witness, the spec's Scenario C shape: ratio 3/4 over 4 entries tolerates
index 0's failure and aborts at index 1 with its error; a target behaviour that
agrees on indices 0 and 1 but would succeed at index 2 (where the original
fails) yields the same abort, showing indices past the abort are never
invoked. -/
theorem C1_failure_budget_abort_witness :
    nodeTol.local_execute kwC invokeNeg = .error (ExecError.subError "neg")
    ∧ nodeTol.local_execute kwC invokeAlt = .error (ExecError.subError "neg")
    ∧ invokeAlt [("x", Literal.scalarInt (-5))] = .ok (Literal.scalarInt 999)
    ∧ invokeNeg [("x", Literal.scalarInt (-5))] = .error "neg" := by
  have h := C1_failure_budget_abort nodeTol kwC invokeNeg 4 1 "neg" (by decide) (by decide)
    (by decide) (by decide) (by decide) (by decide)
  have h1 := h.1 (by decide)
  exact ⟨h1.1, h1.2 invokeAlt (by decide), by decide, by decide⟩

/-- C3: a call that completes without aborting (outputs expected, every input
builds) returns a collection of length exactly `n`, and slot `i` holds the
output value of sub-invocation `i` when it succeeded and the none-sentinel when
its failure was tolerated; slots are never shifted or reordered. -/
theorem C3_positional_correspondence (node : ArrayNode) (kwargs : List (String × PyVal))
    (invoke : List (String × Literal) → Except String Literal) (n : Nat) (ls : List Literal)
    (hn : detect_count node.bound_inputs kwargs node.target.interface.inputs = .ok n)
    (hoe : outputs_expected node = true)
    (hins : ∀ j, j < n → isOkE (sub_literal_inputs node kwargs j) = true)
    (hok : node.local_execute kwargs invoke = .ok (ExecResult.promise ls)) :
    ls.length = n
    ∧ ∀ i, i < n →
      (∀ v, evalIdx (sub_literal_inputs node kwargs) invoke i = .ok v → ls[i]? = some v)
      ∧ (∀ s, evalIdx (sub_literal_inputs node kwargs) invoke i = .error s →
          ls[i]? = some Literal.noneVal) := by
  have hrun := local_execute_run node kwargs invoke n hn hoe hins
  rw [hok] at hrun
  cases hfind : (List.range n).find?
      (abortAtB n (resolve_min_successes node.min_successes node.min_success_ratio n)
        (evalIdx (sub_literal_inputs node kwargs) invoke)) with
  | some j => rw [hfind] at hrun; cases hrun
  | none =>
    rw [hfind] at hrun
    simp only [] at hrun
    have hls : ls =
        (List.range n).map (slotOf (evalIdx (sub_literal_inputs node kwargs) invoke)) :=
      ExecResult.promise.inj (Except.ok.inj hrun)
    subst hls
    constructor
    · simp
    · intro i hiN
      constructor
      · intro v hv
        rw [List.getElem?_map, List.getElem?_range hiN]
        simp [slotOf, hv]
      · intro s hs
        rw [List.getElem?_map, List.getElem?_range hiN]
        simp [slotOf, hs]

/-- C3 witness, the spec's Scenario A: ratio 3/4 over `x = [1, 2, 3, -1]`
completes with `[r(1), r(2), r(3), NONE]`, of length 4, with the none-sentinel
exactly at the failed index. -/
theorem C3_positional_correspondence_witness :
    nodeTol.local_execute kwA invokeNeg =
      .ok (ExecResult.promise [Literal.scalarInt 2, Literal.scalarInt 3,
        Literal.scalarInt 4, Literal.noneVal])
    ∧ [Literal.scalarInt 2, Literal.scalarInt 3, Literal.scalarInt 4,
        Literal.noneVal].length = 4
    ∧ [Literal.scalarInt 2, Literal.scalarInt 3, Literal.scalarInt 4,
        Literal.noneVal][3]? = some Literal.noneVal := by
  have h := C3_positional_correspondence nodeTol kwA invokeNeg 4
    [Literal.scalarInt 2, Literal.scalarInt 3, Literal.scalarInt 4, Literal.noneVal]
    (by decide) (by decide) (by decide) (by decide)
  exact ⟨by decide, h.1, (h.2 3 (by decide)).2 "neg" (by decide)⟩

/-- C5 refuted: with `x = [1, "bad"]` against declared element type int, the
validation passes (only `x[0]` is ever checked), sub-invocation 0 runs, and
under zero tolerance its error is re-raised: the call raises the
sub-invocation's error, not an input-shape error, even though an element does
not match the declared type. -/
theorem C5_counterexample :
    nodeZeroTol.local_execute [("x", PyVal.list [PyScalar.int 1, PyScalar.str "bad"])]
      invokeBoom = .error (ExecError.subError "boom")
    ∧ ¬ nodeZeroTol.local_execute [("x", PyVal.list [PyScalar.int 1, PyScalar.str "bad"])]
      invokeBoom = .error (ExecError.inputShape "x") := by
  decide

/-- C5 (amended): pre-invocation validation covers exactly the first non-bound
field in declared input order: when its kwarg is missing, not a list, an empty
list, or has a first element failing the isinstance check, the call raises the
corresponding error (`KeyError` when missing, the validation error otherwise)
before any sub-invocation runs, the result being identical for every target
behaviour; later non-bound fields and elements past the first are not
pre-validated. -/
theorem C5_first_unbound_validation (node : ArrayNode) (kwargs : List (String × PyVal))
    (k : String) (t : PyType)
    (hfb : first_unbound node.bound_inputs node.target.interface.inputs = some (k, t))
    (hbad : shape_bad (lookup kwargs k) t = true) :
    ∀ invoke, node.local_execute kwargs invoke = .error (shape_error (lookup kwargs k) k) := by
  intro invoke
  unfold ArrayNode.local_execute
  rw [detect_count_first_bad node.bound_inputs kwargs k t node.target.interface.inputs hfb hbad]

/-- C5 witness: a non-list value for the first (and only) unbound field raises
the validation error whatever the target would do. -/
theorem C5_first_unbound_validation_witness :
    nodeZeroTol.local_execute [("x", PyVal.scalar (PyScalar.int 7))] invokeBoom
      = .error (ExecError.inputShape "x") := by
  exact C5_first_unbound_validation nodeZeroTol [("x", PyVal.scalar (PyScalar.int 7))]
    "x" PyType.int (by decide) (by decide) invokeBoom

/-- The transform Optional-wraps the (single) output exactly when the flag is
set and there is exactly one declared output. -/
theorem output_optional_wrapped_transform (iface : Interface) (bound : List String) (w : Bool)
    (hlen : iface.outputs.length ≤ 1) :
    output_optional_wrapped (transform_interface_to_list_interface iface bound w) =
      (w && (iface.outputs.length == 1)) := by
  cases houts : iface.outputs with
  | nil => simp [transform_interface_to_list_interface, output_optional_wrapped, houts]
  | cons kt rest =>
    cases rest with
    | nil =>
      obtain ⟨k, ty⟩ := kt
      cases w <;>
        simp [transform_interface_to_list_interface, output_optional_wrapped, houts]
    | cons kt2 rest2 =>
      rw [houts] at hlen
      simp at hlen

/-- C7: construction fails synchronously exactly when the target declares more
than one output, or is not of the supported LaunchPlan kind, or an
execution_version other than 1 is passed, or the metadata object is not the
NodeMetadata variant; moreover every successfully constructed node carries
execution version 1 (the default for the supported kind). -/
theorem C7_construction_validation (t : Target) (c : Option Nat) (ms : Option Int)
    (msr : Option Frac) (b : Option (List String)) (ev : Option Int)
    (md : Option MetadataVariant) :
    (isOkE (ArrayNode.init t c ms msr b ev md) = false ↔
      1 < t.interface.outputs.length ∨ t.kind ≠ TargetKind.launchPlan
      ∨ (∃ v, ev = some v ∧ v ≠ 1) ∨ md = some MetadataVariant.taskMetadata)
    ∧ (∀ node, ArrayNode.init t c ms msr b ev md = .ok node →
        node.execution_version = 1) := by
  constructor
  · unfold ArrayNode.init
    by_cases h1 : 1 < t.interface.outputs.length
    · simp [if_pos h1, isOkE, h1]
    · rw [if_neg h1]
      cases hk : t.kind with
      | launchPlan =>
        cases ev with
        | none =>
          cases md with
          | none => simp [isOkE, h1]
          | some mv =>
            cases mv with
            | nodeMetadata => simp [isOkE, h1]
            | taskMetadata => simp [isOkE, h1]
        | some v =>
          by_cases hv : v = 1
          · subst hv
            cases md with
            | none => simp [isOkE, h1]
            | some mv =>
              cases mv with
              | nodeMetadata => simp [isOkE, h1]
              | taskMetadata => simp [isOkE, h1]
          · have hcond : ((some v).getD 1 != 1) = true := by simp [hv]
            simp [isOkE, h1, hcond, hv]
      | other =>
        simp [isOkE, h1]
  · intro node h
    unfold ArrayNode.init at h
    split at h
    · cases h
    · split at h
      · by_cases hcond : ((ev.getD 1) != 1) = true
        · rw [if_pos hcond] at h
          cases h
        · rw [if_neg hcond] at h
          split at h
          · cases h
          · have hn := Except.ok.inj h
            rw [← hn]
            show ev.getD 1 = 1
            by_contra hne
            exact hcond (by simp [hne])
      · cases h

/-- C7 witness: a two-output target and an execution version of 2 are rejected
at construction, and the zero-tolerance node built with defaults carries
execution version 1. -/
theorem C7_construction_validation_witness :
    isOkE (ArrayNode.init tgtTwoOut none none none none none none) = false
    ∧ isOkE (ArrayNode.init tgtInt none none none none (some 2) none) = false
    ∧ nodeZeroTol.execution_version = 1 := by
  refine ⟨?_, ?_, ?_⟩
  · exact (C7_construction_validation tgtTwoOut none none none none none none).1.mpr
      (Or.inl (by decide))
  · exact (C7_construction_validation tgtInt none none none none (some 2) none).1.mpr
      (Or.inr (Or.inr (Or.inl ⟨2, rfl, by decide⟩)))
  · exact (C7_construction_validation tgtInt none none none none none none).2 nodeZeroTol
      (by decide)

/-- C8 refuted: with an explicit `min_successes = 1` and no ratio configured,
the derived interface is not Optional-wrapped, yet a call whose first
sub-invocation fails completes and returns a partial collection containing the
none-sentinel — so without Optional wrapping a failure need not be fatal and a
partial result can be returned. -/
theorem C8_counterexample :
    output_optional_wrapped nodeMs1.collection_interface = false
    ∧ nodeMs1.local_execute (kwInts [-1, 2]) invokeNeg
        = .ok (ExecResult.promise [Literal.noneVal, Literal.scalarInt 3]) := by
  decide

/-- C8 (amended): the derived collection interface wraps the single output's
element type in Optional precisely when `min_success_ratio` is given with value
different from 1 and the target has exactly one output; otherwise the output
collection element type is not Optional-wrapped.  (A failure can still be
tolerated without Optional wrapping when an explicit `min_successes` below the
mapped count is configured, as the accompanying counterexample shows.) -/
theorem C8_optional_iff (t : Target) (c : Option Nat) (ms : Option Int) (msr : Option Frac)
    (b : Option (List String)) (ev : Option Int) (md : Option MetadataVariant)
    (node : ArrayNode) (h : ArrayNode.init t c ms msr b ev md = .ok node) :
    (output_optional_wrapped node.collection_interface = true ↔
      (∃ q, msr = some q ∧ q.isOne = false) ∧ t.interface.outputs.length = 1) := by
  unfold ArrayNode.init at h
  split at h
  · cases h
  · rename_i hlen
    split at h
    · split at h
      · cases h
      · split at h
        · cases h
        · have hn := Except.ok.inj h
          rw [← hn]
          show output_optional_wrapped
            (transform_interface_to_list_interface t.interface (b.getD [])
              (msr.isSome && !((msr.getD ⟨0, 1⟩).isOne)
                && (t.interface.outputs.length == 1))) = true ↔ _
          rw [output_optional_wrapped_transform t.interface (b.getD []) _ (by omega)]
          cases msr with
          | none => simp
          | some q => simp [Bool.and_assoc]
    · cases h

/-- C8 witness: a ratio of 3/4 over the single-output target produces an
Optional-wrapped output collection type. -/
theorem C8_optional_iff_witness :
    output_optional_wrapped nodeTol.collection_interface = true := by
  exact (C8_optional_iff tgtInt none none (some ⟨3, 4⟩) none none none nodeTol (by decide)).mpr
    ⟨⟨⟨3, 4⟩, rfl, by decide⟩, by decide⟩
